import Mathlib

/-!
Shallow embedding of the core of the `dockerisedPlaywrightAPITest` repository:
the `ResponseValidator` predicate library (`src/utils/validators.ts`) and the
`ApiClient` request wrapper (`src/utils/api-client.ts`), together with the
runtime type guards of `src/types/api-responses.ts`.

JavaScript specifics that matter here are modelled explicitly:
  * the `\s` character class and `String.prototype.trim` use the ECMAScript
    white-space/line-terminator set;
  * JS truthiness (`!x`) on numbers, strings, objects and `undefined`;
  * `typeof` strings as produced at runtime;
  * duplicate class members: of the two `validateEmailFormat` declarations in
    `validators.ts` the later (simplified-regex) one is the runtime-effective
    member, so it alone is embedded as `validateEmailFormat`.
-/

namespace ApiTest

/-- The ECMAScript white-space set used both by the regex class `\s` and by
`String.prototype.trim`: WhiteSpace ∪ LineTerminator code points. -/
def isJsWhitespace (c : Char) : Bool :=
  c == ' ' || c == '\t' || c == '\n' || c == '\r' || c == '\x0b' || c == '\x0c' ||
  c == '\u00A0' || c == '\u1680' ||
  (0x2000 ≤ c.toNat && c.toNat ≤ 0x200A) ||
  c == '\u2028' || c == '\u2029' || c == '\u202F' || c == '\u205F' ||
  c == '\u3000' || c == '\uFEFF'

/-- The character class `[^\s@]` of the simplified email regex. -/
def emailChar (c : Char) : Bool :=
  !isJsWhitespace c && c != '@'

/-- Split a character list at its first `'@'`, returning the (necessarily
`'@'`-free) prefix and the remainder; `none` when no `'@'` occurs. -/
def splitAtAt : List Char → Option (List Char × List Char)
  | [] => none
  | c :: cs =>
    if c == '@' then some ([], cs)
    else
      match splitAtAt cs with
      | none => none
      | some (a, b) => some (c :: a, b)

/-- Matcher for the sub-pattern `[^\s@]*\.[^\s@]+` (the part after the first
mandatory `[^\s@]` character of the domain). -/
def midMatch : List Char → Bool
  | [] => false
  | c :: cs =>
    (c == '.' && !cs.isEmpty && cs.all emailChar) || (emailChar c && midMatch cs)

/-- Matcher for the sub-pattern `[^\s@]+\.[^\s@]+` (the domain part). -/
def restMatch : List Char → Bool
  | [] => false
  | c :: cs => emailChar c && midMatch cs

/-- Matcher for the whole anchored regex `^[^\s@]+@[^\s@]+\.[^\s@]+$`. -/
def emailMatch (cs : List Char) : Bool :=
  match splitAtAt cs with
  | none => false
  | some (a, r) => !a.isEmpty && a.all emailChar && restMatch r

/-- `ResponseValidator.validateEmailFormat` (the runtime-effective, later
declaration in `validators.ts`): `/^[^\s@]+@[^\s@]+\.[^\s@]+$/.test(email)`. -/
def validateEmailFormat (email : String) : Bool :=
  emailMatch email.data

/-- Declarative semantics of the anchored regex
`^[^\s@]+@[^\s@]+\.[^\s@]+$`: the string decomposes as
`A ++ "@" ++ B ++ "." ++ C` with `A`, `B`, `C` non-empty and drawn from the
class `[^\s@]`. -/
def EmailRegexMatches (cs : List Char) : Prop :=
  ∃ A B C : List Char,
    cs = A ++ '@' :: (B ++ '.' :: C) ∧
    A ≠ [] ∧ B ≠ [] ∧ C ≠ [] ∧
    (∀ c ∈ A, emailChar c = true) ∧
    (∀ c ∈ B, emailChar c = true) ∧
    (∀ c ∈ C, emailChar c = true)

/-- Runtime JavaScript values, as far as the validators inspect them:
primitives, objects with named fields, and arrays. Numbers are modelled as
integers (all numeric fields in play are ids/foreign keys). -/
inductive JsVal : Type where
  | undefined : JsVal
  | vnull : JsVal
  | num : Int → JsVal
  | str : String → JsVal
  | bool : Bool → JsVal
  | obj : List (String × JsVal) → JsVal
  | arr : List JsVal → JsVal

/-- Property access `v.f`: a field of an object, `undefined` otherwise
(missing field, or non-object receiver). -/
def getField (v : JsVal) (f : String) : JsVal :=
  match v with
  | .obj fields => (fields.lookup f).getD .undefined
  | _ => .undefined

/-- The string produced by the JS `typeof` operator. -/
def typeofStr : JsVal → String
  | .undefined => "undefined"
  | .vnull => "object"
  | .num _ => "number"
  | .str _ => "string"
  | .bool _ => "boolean"
  | .obj _ => "object"
  | .arr _ => "object"

/-- JS truthiness: `0`, `""`, `false`, `null` and `undefined` are falsy. -/
def jsTruthy : JsVal → Bool
  | .undefined => false
  | .vnull => false
  | .num n => n != 0
  | .str s => !s.data.isEmpty
  | .bool b => b
  | .obj _ => true
  | .arr _ => true

/-- Is the value the JS `null` literal (the `obj !== null` check)? -/
def isNullVal : JsVal → Bool
  | .vnull => true
  | _ => false

/-- The underlying string of a value already type-checked as `string`
(the TypeScript narrowing after a `typeof x === "string"` test). -/
def asString : JsVal → String
  | .str s => s
  | _ => ""

/-- The underlying number of a value already type-checked as `number`. -/
def asNum : JsVal → Int
  | .num n => n
  | _ => 0

/-- `String.prototype.trim`: strip leading and trailing ECMAScript
white-space from a character list. -/
def jsTrimList (cs : List Char) : List Char :=
  ((cs.dropWhile isJsWhitespace).reverse.dropWhile isJsWhitespace).reverse

/-- `String.prototype.trim` on strings. -/
def jsTrim (s : String) : String :=
  ⟨jsTrimList s.data⟩

/-- Type guard `isComment` from `api-responses.ts`. -/
def isComment (v : JsVal) : Bool :=
  typeofStr v == "object" && !isNullVal v &&
  typeofStr (getField v "id") == "number" &&
  typeofStr (getField v "postId") == "number" &&
  typeofStr (getField v "name") == "string" &&
  typeofStr (getField v "email") == "string" &&
  typeofStr (getField v "body") == "string"

/-- Type guard `isPhoto` from `api-responses.ts`. -/
def isPhoto (v : JsVal) : Bool :=
  typeofStr v == "object" && !isNullVal v &&
  typeofStr (getField v "id") == "number" &&
  typeofStr (getField v "albumId") == "number" &&
  typeofStr (getField v "title") == "string" &&
  typeofStr (getField v "url") == "string" &&
  typeofStr (getField v "thumbnailUrl") == "string"

/-- Type guard `isAlbum` from `api-responses.ts`. -/
def isAlbum (v : JsVal) : Bool :=
  typeofStr v == "object" && !isNullVal v &&
  typeofStr (getField v "id") == "number" &&
  typeofStr (getField v "userId") == "number" &&
  typeofStr (getField v "title") == "string"

/-- Type guard `isTodo` from `api-responses.ts`. -/
def isTodo (v : JsVal) : Bool :=
  typeofStr v == "object" && !isNullVal v &&
  typeofStr (getField v "id") == "number" &&
  typeofStr (getField v "userId") == "number" &&
  typeofStr (getField v "title") == "string" &&
  typeofStr (getField v "completed") == "boolean"

/-- Type guard `isPost` from `api-responses.ts`. -/
def isPost (v : JsVal) : Bool :=
  typeofStr v == "object" && !isNullVal v &&
  typeofStr (getField v "id") == "number" &&
  typeofStr (getField v "userId") == "number" &&
  typeofStr (getField v "title") == "string" &&
  typeofStr (getField v "body") == "string"

/-- `ResponseValidator.validateCommentObject`. Mirrors the source exactly:
a JS-truthiness presence check on the five fields (so `0` ids fail here),
then `typeof` checks, then email-format validation, then
non-empty-after-trim checks. -/
def validateCommentObject (comment : JsVal) : Bool :=
  if !jsTruthy (getField comment "postId") || !jsTruthy (getField comment "id") ||
     !jsTruthy (getField comment "name") || !jsTruthy (getField comment "email") ||
     !jsTruthy (getField comment "body") then
    false
  else if !(typeofStr (getField comment "postId") == "number") ||
          !(typeofStr (getField comment "id") == "number") ||
          !(typeofStr (getField comment "name") == "string") ||
          !(typeofStr (getField comment "email") == "string") ||
          !(typeofStr (getField comment "body") == "string") then
    false
  else if !validateEmailFormat (asString (getField comment "email")) then
    false
  else if (jsTrim (asString (getField comment "name"))).data.length == 0 ||
          (jsTrim (asString (getField comment "email"))).data.length == 0 ||
          (jsTrim (asString (getField comment "body"))).data.length == 0 then
    false
  else
    true

/-- The foreign-key consistency test
`expectedX !== undefined && entity.x !== expectedX` shared by the photo,
album, todo and post validators: true exactly when an expected key was
supplied and the entity's key differs from it. -/
def fkMismatch (actual : JsVal) (expected : Option Int) : Bool :=
  match expected with
  | some e => asNum actual != e
  | none => false

/-- `ResponseValidator.validatePhoto`. The WHATWG URL parser behind
`validateUrlFormat` is an external capability, passed in as the predicate
`urlOk`. -/
def validatePhoto (urlOk : String → Bool) (photo : JsVal)
    (expectedAlbumId : Option Int) : Bool :=
  if !isPhoto photo then false
  else if !urlOk (asString (getField photo "url")) then false
  else if !urlOk (asString (getField photo "thumbnailUrl")) then false
  else if fkMismatch (getField photo "albumId") expectedAlbumId then false
  else true

/-- `ResponseValidator.validateAlbum`. -/
def validateAlbum (album : JsVal) (expectedUserId : Option Int) : Bool :=
  if !isAlbum album then false
  else if fkMismatch (getField album "userId") expectedUserId then false
  else if !jsTruthy (getField album "title") ||
          (jsTrim (asString (getField album "title"))).data.length == 0 then
    false
  else
    true

/-- `ResponseValidator.validateTodo`. -/
def validateTodo (todo : JsVal) (expectedUserId : Option Int) : Bool :=
  if !isTodo todo then false
  else if !(typeofStr (getField todo "completed") == "boolean") then false
  else if fkMismatch (getField todo "userId") expectedUserId then false
  else if !jsTruthy (getField todo "title") ||
          (jsTrim (asString (getField todo "title"))).data.length == 0 then
    false
  else
    true

/-- `ResponseValidator.validatePost`. -/
def validatePost (post : JsVal) (expectedUserId : Option Int) : Bool :=
  if !isPost post then false
  else if fkMismatch (getField post "userId") expectedUserId then false
  else if !jsTruthy (getField post "title") ||
          (jsTrim (asString (getField post "title"))).data.length == 0 then
    false
  else if !jsTruthy (getField post "body") ||
          (jsTrim (asString (getField post "body"))).data.length == 0 then
    false
  else
    true

/-- A comment whose `postId` is the number 0: it matches the `isComment`
shape guard and every layered business rule (valid email, non-empty
trimmed text fields), but the JS-truthiness presence check of
`validateCommentObject` rejects it. -/
def commentWithZeroPostId : JsVal :=
  .obj [("postId", .num 0), ("id", .num 1), ("name", .str "id labore"),
        ("email", .str "a@b.co"), ("body", .str "quia et suscipit")]

/-- A fully valid sample comment (non-zero ids). -/
def sampleComment : JsVal :=
  .obj [("postId", .num 1), ("id", .num 1), ("name", .str "id labore"),
        ("email", .str "a@b.co"), ("body", .str "quia et suscipit")]

/-- A sample photo with `id` and `albumId` both 0. -/
def samplePhoto : JsVal :=
  .obj [("id", .num 0), ("albumId", .num 0), ("title", .str "accusamus"),
        ("url", .str "https://via.placeholder.com/600/92c952"),
        ("thumbnailUrl", .str "https://via.placeholder.com/150/92c952")]

/-- A sample album with `id` and `userId` both 0. -/
def sampleAlbum : JsVal :=
  .obj [("id", .num 0), ("userId", .num 0), ("title", .str "quidem molestiae")]

/-- A sample todo with `id` and `userId` both 0. -/
def sampleTodo : JsVal :=
  .obj [("id", .num 0), ("userId", .num 0), ("title", .str "delectus aut"),
        ("completed", .bool false)]

/-- A sample post with `id` and `userId` both 0. -/
def samplePost : JsVal :=
  .obj [("id", .num 0), ("userId", .num 0), ("title", .str "sunt aut facere"),
        ("body", .str "quia et suscipit")]

/-- The `headers` field of an envelope as `validateApiResponse` can observe
it: `undefined`, defined but of non-`"object"` `typeof`, or a genuine
header record. Envelopes built by `ApiClient.get` always use `.obj`. -/
inductive HeadersField : Type where
  | undefined : HeadersField
  | nonObject : HeadersField
  | obj : List (String × String) → HeadersField

/-- The `ApiResponse<T>` envelope of `api-responses.ts`: optional `data`,
optional `error` (at runtime the same parsed body value, merely re-typed by
the `as` casts in `ApiClient.get`), a status code and headers. -/
structure ApiResponse (α : Type) : Type where
  data : Option α
  error : Option α
  status : Nat
  headers : HeadersField

/-- The runtime shape of a `data` payload that is statically typed `T[]`:
either genuinely an array, or some non-array value (`Array.isArray` fails). -/
inductive ArrVal (β : Type) : Type where
  | nonArray : ArrVal β
  | arr : List β → ArrVal β

/-- The item loop of `validateArrayResponse`, instrumented with the list of
indices at which the item predicate was actually invoked: starting at index
`i`, run `p` on each element in order, stopping at the first failure. -/
def arrayLoop (p : β → Bool) : List β → Nat → Bool × List Nat
  | [], _ => (true, [])
  | x :: xs, i =>
    if p x then
      let r := arrayLoop p xs (i + 1)
      (r.1, i :: r.2)
    else
      (false, [i])

/-- `ResponseValidator.validateArrayResponse`, instrumented: returns the
boolean result together with the indices at which the item predicate was
invoked. `data` missing (falsy) or not an array fails immediately; an empty
array is vacuously valid; otherwise the loop runs from index 0. -/
def validateArrayResponseTrace (p : β → Bool) (response : ApiResponse (ArrVal β)) :
    Bool × List Nat :=
  match response.data with
  | none => (false, [])
  | some .nonArray => (false, [])
  | some (.arr xs) =>
    if xs.length == 0 then (true, [])
    else arrayLoop p xs 0

/-- `ResponseValidator.validateArrayResponse`: the boolean result. -/
def validateArrayResponse (p : β → Bool) (response : ApiResponse (ArrVal β)) : Bool :=
  (validateArrayResponseTrace p response).1

/-- `ResponseValidator.validateApiResponse` as the predicate "all of its
`expect` assertions pass" (it returns `void`; any failing assertion aborts
the test): status equals the expectation; for expected 200, `data` defined
and `error` undefined, for any other expected code the inverse; and headers
defined with `typeof ... === "object"`. -/
def validateApiResponse (response : ApiResponse α) (expectedStatus : Nat) : Bool :=
  (response.status == expectedStatus) &&
  (if expectedStatus == 200 then
     response.data.isSome && response.error.isNone
   else
     response.error.isSome && response.data.isNone) &&
  (match response.headers with
   | .obj _ => true
   | _ => false)

/-- Outcome of `response.json()` on a completed HTTP exchange: a parsed
value, or a JSON parse failure. -/
inductive ParseOutcome (α : Type) : Type where
  | parsed : α → ParseOutcome α
  | parseFail : ParseOutcome α

/-- Outcome of the underlying Playwright `request.get` call: a completed
exchange (status, body, headers), or a transport-level failure
(connection refused, timeout, ...) carrying the thrown message. -/
inductive TransportResult (α : Type) : Type where
  | completed : Nat → ParseOutcome α → List (String × String) → TransportResult α
  | failed : String → TransportResult α

/-- The errors `ApiClient.get` can throw, with the message the source
builds in each case: a JSON parse failure, or a transport failure. -/
inductive GetError : Type where
  | parseError : String → GetError
  | transportError : String → GetError

/-- Options of `ApiClient.get`; only `expectedStatus` (default 200) can
influence anything beyond the transport call itself. -/
structure GetOptions : Type where
  expectedStatus : Nat

/-- The defaulted options of a plain `this.get(endpoint)` call. -/
def defaultGetOptions : GetOptions :=
  { expectedStatus := 200 }

/-- `ApiClient.get`, as a function of the transport outcome. A transport
failure is re-thrown wrapped; a completed exchange whose body fails JSON
parsing throws (the inner `Invalid JSON response` error, re-wrapped by the
outer catch); otherwise the envelope is built purely from the actual
status: body into `data` when `200 <= status < 300`, into `error`
otherwise, with status and headers always populated. `opts.expectedStatus`
only drives logging in the source and never the envelope. -/
def get (baseUrl endpoint : String) (opts : GetOptions)
    (tr : TransportResult α) : Except GetError (ApiResponse α) :=
  let url := baseUrl ++ endpoint
  match tr with
  | .failed msg =>
    .error (.transportError ("API request to " ++ url ++ " failed: " ++ msg))
  | .completed s body hs =>
    match body with
    | .parseFail =>
      .error (.parseError
        ("API request to " ++ url ++ " failed: Invalid JSON response from " ++ url))
    | .parsed v =>
      .ok { data := if 200 ≤ s ∧ s < 300 then some v else none,
            error := if 200 ≤ s ∧ s < 300 then none else some v,
            status := s,
            headers := .obj hs }

/-- `Promise.all` over already-started requests: the whole join fails on
the first rejection, otherwise all results are collected in order. -/
def joinAll : List (Except GetError β) → Except GetError (List β)
  | [] => .ok []
  | x :: xs =>
    match x with
    | .error e => .error e
    | .ok b =>
      match joinAll xs with
      | .error e => .error e
      | .ok bs => .ok (b :: bs)

/-- `ApiClient.concurrentRequests`: fire `concurrency` GETs of the endpoint
(each with the defaulted options of `this.get(endpoint)`), join them all.
`outcome i` is the transport outcome of the `i`-th request. -/
def concurrentRequests (baseUrl endpoint : String) (concurrency : Nat)
    (outcome : Nat → TransportResult α) : Except GetError (List (ApiResponse α)) :=
  joinAll ((List.range concurrency).map
    (fun i => get baseUrl endpoint defaultGetOptions (outcome i)))

/-- `ApiClient.healthCheck`: GET the fixed path `/health` with
`expectedStatus: 200`, return whether the envelope's status is 200,
swallowing any thrown error into `false`. -/
def healthCheck (baseUrl : String) (tr : TransportResult α) : Bool :=
  match get baseUrl "/health" { expectedStatus := 200 } tr with
  | .ok response => response.status == 200
  | .error _ => false

lemma splitAtAt_eq_some {cs a r : List Char} (h : splitAtAt cs = some (a, r)) :
    cs = a ++ '@' :: r ∧ '@' ∉ a := by
  induction cs generalizing a r with
  | nil => simp [splitAtAt] at h
  | cons c cs ih =>
    by_cases hc : c = '@'
    · subst hc
      simp [splitAtAt] at h
      obtain ⟨ha, hr⟩ := h
      subst ha; subst hr
      simp
    · rw [splitAtAt] at h
      simp [hc] at h
      cases hsplit : splitAtAt cs with
      | none => rw [hsplit] at h; simp at h
      | some p =>
        obtain ⟨a0, r0⟩ := p
        rw [hsplit] at h
        simp at h
        obtain ⟨ha, hr⟩ := h
        obtain ⟨hcs, hna⟩ := ih hsplit
        subst hr
        constructor
        · rw [← ha]; simp [hcs]
        · rw [← ha]
          intro hm
          rcases List.mem_cons.mp hm with he | hm2
          · exact hc he.symm
          · exact hna hm2

lemma splitAtAt_append {a : List Char} (r : List Char) (ha : '@' ∉ a) :
    splitAtAt (a ++ '@' :: r) = some (a, r) := by
  induction a with
  | nil => simp [splitAtAt]
  | cons c a ih =>
    have hc : c ≠ '@' := by
      intro he; exact ha (by simp [he])
    have ha' : '@' ∉ a := fun hm => ha (by simp [hm])
    rw [List.cons_append, splitAtAt]
    simp [hc, ih ha']

lemma midMatch_iff (m : List Char) :
    midMatch m = true ↔
      ∃ B C : List Char, m = B ++ '.' :: C ∧ C ≠ [] ∧
        (∀ c ∈ B, emailChar c = true) ∧ (∀ c ∈ C, emailChar c = true) := by
  induction m with
  | nil => simp [midMatch]
  | cons c cs ih =>
    rw [midMatch]
    constructor
    · intro h
      simp only [Bool.or_eq_true, Bool.and_eq_true] at h
      rcases h with ⟨⟨hdot, hne⟩, hall⟩ | ⟨hc, hmid⟩
      · refine ⟨[], cs, ?_, ?_, by simp, ?_⟩
        · simp [beq_iff_eq.mp hdot]
        · intro he; rw [he] at hne; simp at hne
        · intro x hx; exact List.all_eq_true.mp hall x hx
      · obtain ⟨B, C, hm, hC, hB, hCall⟩ := ih.mp hmid
        refine ⟨c :: B, C, by simp [hm], hC, ?_, hCall⟩
        intro x hx
        rcases List.mem_cons.mp hx with hx | hx
        · rw [hx]; exact hc
        · exact hB x hx
    · rintro ⟨B, C, hm, hC, hB, hCall⟩
      simp only [Bool.or_eq_true, Bool.and_eq_true]
      cases B with
      | nil =>
        simp only [List.nil_append, List.cons.injEq] at hm
        obtain ⟨hc, hcs⟩ := hm
        left
        refine ⟨⟨by simp [hc], ?_⟩, ?_⟩
        · rw [hcs]
          cases C with
          | nil => exact absurd rfl hC
          | cons d D => simp
        · rw [hcs]
          exact List.all_eq_true.mpr hCall
      | cons b B =>
        simp at hm
        obtain ⟨hc, hcs⟩ := hm
        right
        constructor
        · rw [hc]; exact hB b (by simp)
        · exact ih.mpr ⟨B, C, hcs, hC, fun x hx => hB x (by simp [hx]), hCall⟩

lemma restMatch_iff (r : List Char) :
    restMatch r = true ↔
      ∃ B C : List Char, r = B ++ '.' :: C ∧ B ≠ [] ∧ C ≠ [] ∧
        (∀ c ∈ B, emailChar c = true) ∧ (∀ c ∈ C, emailChar c = true) := by
  cases r with
  | nil => simp [restMatch]
  | cons c cs =>
    rw [restMatch]
    simp only [Bool.and_eq_true]
    constructor
    · rintro ⟨hc, hmid⟩
      obtain ⟨B, C, hm, hC, hB, hCall⟩ := (midMatch_iff cs).mp hmid
      refine ⟨c :: B, C, by simp [hm], by simp, hC, ?_, hCall⟩
      intro x hx
      rcases List.mem_cons.mp hx with hx | hx
      · rw [hx]; exact hc
      · exact hB x hx
    · rintro ⟨B, C, hm, hBne, hC, hB, hCall⟩
      cases B with
      | nil => exact absurd rfl hBne
      | cons b B =>
        simp at hm
        obtain ⟨hc, hcs⟩ := hm
        refine ⟨by rw [hc]; exact hB b (by simp), ?_⟩
        exact (midMatch_iff cs).mpr
          ⟨B, C, hcs, hC, fun x hx => hB x (by simp [hx]), hCall⟩

lemma emailMatch_iff (cs : List Char) :
    emailMatch cs = true ↔ EmailRegexMatches cs := by
  constructor
  · intro h
    rw [emailMatch] at h
    cases hsplit : splitAtAt cs with
    | none => rw [hsplit] at h; simp at h
    | some p =>
      obtain ⟨a, r⟩ := p
      rw [hsplit] at h
      simp only [Bool.and_eq_true] at h
      obtain ⟨⟨hane, haall⟩, hrest⟩ := h
      obtain ⟨hcs, _⟩ := splitAtAt_eq_some hsplit
      obtain ⟨B, C, hr, hBne, hCne, hB, hC⟩ := (restMatch_iff r).mp hrest
      refine ⟨a, B, C, ?_, ?_, hBne, hCne, ?_, hB, hC⟩
      · rw [hcs, hr]
      · intro he; rw [he] at hane; simp at hane
      · intro x hx; exact List.all_eq_true.mp haall x hx
  · rintro ⟨A, B, C, hcs, hAne, hBne, hCne, hA, hB, hC⟩
    have hAat : '@' ∉ A := by
      intro hm
      have := hA '@' hm
      simp [emailChar] at this
    rw [emailMatch, hcs, splitAtAt_append _ hAat]
    simp only [Bool.and_eq_true]
    refine ⟨⟨?_, ?_⟩, ?_⟩
    · cases A with
      | nil => exact absurd rfl hAne
      | cons a A => simp
    · exact List.all_eq_true.mpr hA
    · exact (restMatch_iff _).mpr ⟨B, C, rfl, hBne, hCne, hB, hC⟩

lemma arrayLoop_all_true (p : β → Bool) (xs : List β) (i : Nat)
    (h : ∀ x ∈ xs, p x = true) :
    arrayLoop p xs i = (true, List.range' i xs.length) := by
  induction xs generalizing i with
  | nil => simp [arrayLoop, List.range']
  | cons x xs ih =>
    have hx : p x = true := h x (by simp)
    rw [arrayLoop]
    simp only [hx, if_true]
    rw [ih (i + 1) (fun y hy => h y (by simp [hy]))]
    simp [List.range'_succ]

lemma arrayLoop_first_failure (p : β → Bool) (xs : List β) (k i : Nat)
    (hk : k < xs.length)
    (hbelow : ∀ j (hj : j < k), p (xs.get ⟨j, hj.trans hk⟩) = true)
    (hfail : p (xs.get ⟨k, hk⟩) = false) :
    arrayLoop p xs i = (false, List.range' i (k + 1)) := by
  induction xs generalizing k i with
  | nil => simp at hk
  | cons x xs ih =>
    cases k with
    | zero =>
      have hx : p x = false := hfail
      rw [arrayLoop]
      simp [hx, List.range'_succ, List.range']
    | succ k =>
      have hx : p x = true := hbelow 0 (Nat.succ_pos k)
      have hk' : k < xs.length := Nat.lt_of_succ_lt_succ hk
      rw [arrayLoop]
      simp only [hx, if_true]
      rw [ih k (i + 1) hk'
        (fun j hj => hbelow (j + 1) (Nat.succ_lt_succ hj)) hfail]
      simp [List.range'_succ]

/-- C3: the canonical (runtime-effective) `validateEmailFormat` accepts a
string exactly when it matches the simplified regex
`^[^\s@]+@[^\s@]+\.[^\s@]+$`; in particular `"a@b.co"` is accepted while
`"not-an-email"` and `"a@b"` are rejected. (The earlier, stricter
RFC-5322-style declaration of the same name is shadowed at runtime by this
later declaration, so it has no effect on the result.) -/
theorem validateEmailFormat_matches_simplified_regex :
    (∀ s : String, validateEmailFormat s = true ↔ EmailRegexMatches s.data) ∧
    validateEmailFormat "a@b.co" = true ∧
    validateEmailFormat "not-an-email" = false ∧
    validateEmailFormat "a@b" = false := by
  refine ⟨fun s => emailMatch_iff s.data, ?_, ?_, ?_⟩ <;> decide

/-- C3 witness: the theorem evaluated at `"a@b.co"`, which the validator
accepts and which matches the regex semantics. -/
theorem validateEmailFormat_matches_simplified_regex_witness :
    validateEmailFormat "a@b.co" = true ∧ EmailRegexMatches "a@b.co".data :=
  ⟨validateEmailFormat_matches_simplified_regex.2.1,
   (validateEmailFormat_matches_simplified_regex.1 "a@b.co").mp
     validateEmailFormat_matches_simplified_regex.2.1⟩

/-- C5: the array validator is vacuously true on an empty `data` array and
false when `data` is undefined or not an array, and in all three cases it
never invokes the item predicate (the trace of invoked indices is empty). -/
theorem validateArrayResponse_empty_and_nondata :
    ∀ (β : Type) (p : β → Bool) (e : Option (ArrVal β)) (st : Nat)
      (hd : HeadersField),
      validateArrayResponseTrace p ⟨some (.arr []), e, st, hd⟩ = (true, []) ∧
      validateArrayResponseTrace p ⟨none, e, st, hd⟩ = (false, []) ∧
      validateArrayResponseTrace p ⟨some .nonArray, e, st, hd⟩ = (false, []) ∧
      validateArrayResponse p ⟨some (.arr []), e, st, hd⟩ = true ∧
      validateArrayResponse p ⟨none, e, st, hd⟩ = false ∧
      validateArrayResponse p ⟨some .nonArray, e, st, hd⟩ = false := by
  intro β p e st hd
  exact ⟨rfl, rfl, rfl, rfl, rfl, rfl⟩

/-- C4: on an envelope whose `data` is an array, if the item predicate
accepts every element below index `k` and rejects the element at index `k`
then the array validator returns false and never invokes the predicate at
an index above `k`; and if the predicate accepts every element, the
validator returns true. -/
theorem validateArrayResponse_short_circuit :
    ∀ (β : Type) (p : β → Bool) (e : Option (ArrVal β)) (st : Nat)
      (hd : HeadersField) (xs : List β),
      (∀ k (hk : k < xs.length),
        (∀ j (hj : j < k), p (xs.get ⟨j, hj.trans hk⟩) = true) →
        p (xs.get ⟨k, hk⟩) = false →
        validateArrayResponse p ⟨some (.arr xs), e, st, hd⟩ = false ∧
        ∀ j ∈ (validateArrayResponseTrace p ⟨some (.arr xs), e, st, hd⟩).2, j ≤ k) ∧
      ((∀ x ∈ xs, p x = true) →
        validateArrayResponse p ⟨some (.arr xs), e, st, hd⟩ = true) := by
  intro β p e st hd xs
  constructor
  · intro k hk hbelow hfail
    have hne : (xs.length == 0) = false := by
      simp only [beq_eq_false_iff_ne, ne_eq]
      omega
    have hloop := arrayLoop_first_failure p xs k 0 hk hbelow hfail
    constructor
    · rw [validateArrayResponse, validateArrayResponseTrace]
      simp [hne, hloop]
    · intro j hj
      rw [validateArrayResponseTrace] at hj
      simp only [hne] at hj
      rw [if_neg (by simp)] at hj
      rw [hloop] at hj
      have := List.mem_range'_1.mp hj
      omega
  · intro hall
    rw [validateArrayResponse, validateArrayResponseTrace]
    by_cases h0 : xs.length = 0
    · simp [h0]
    · have hne : (xs.length == 0) = false := by
        simp only [beq_eq_false_iff_ne, ne_eq]
        omega
      simp [hne, arrayLoop_all_true p xs 0 hall]

/-- C4 witness: with the predicate `(· == 0)` on `[0, 1, 5]` (first failure
at index 1), the validator returns false and every invoked index is at most
1; on `[0, 0]` (all accepted) it returns true. -/
theorem validateArrayResponse_short_circuit_witness :
    validateArrayResponse (fun n : Nat => n == 0)
      ⟨some (.arr [0, 1, 5]), none, 200, .obj []⟩ = false ∧
    (∀ j ∈ (validateArrayResponseTrace (fun n : Nat => n == 0)
      ⟨some (.arr [0, 1, 5]), none, 200, .obj []⟩).2, j ≤ 1) ∧
    validateArrayResponse (fun n : Nat => n == 0)
      ⟨some (.arr [0, 0]), none, 200, .obj []⟩ = true := by
  have h := validateArrayResponse_short_circuit Nat (fun n => n == 0) none 200
    (.obj []) [0, 1, 5]
  have h1 := h.1 1 (by decide)
    (by
      intro j hj
      have hj0 : j = 0 := by omega
      subst hj0
      rfl)
    rfl
  have h2 := (validateArrayResponse_short_circuit Nat (fun n => n == 0) none 200
    (.obj []) [0, 0]).2 (by decide)
  exact ⟨h1.1, h1.2, h2⟩

/-- C6: `validateApiResponse` passes (returns without an assertion failure)
exactly when the status equals the expected code, the `data`/`error`
obligations of the expected-200 or expected-non-200 branch hold (at 200:
`data` defined and `error` undefined, so a 200 envelope with both
undefined still fails), and the headers are a defined object. -/
theorem validateApiResponse_passes_iff :
    ∀ (α : Type) (r : ApiResponse α) (expected : Nat),
      validateApiResponse r expected = true ↔
        (r.status = expected ∧
         (expected = 200 → r.data.isSome = true ∧ r.error = none) ∧
         (expected ≠ 200 → r.error.isSome = true ∧ r.data = none) ∧
         ∃ hs, r.headers = HeadersField.obj hs) := by
  intro α r expected
  rw [validateApiResponse]
  by_cases he : expected = 200 <;>
    cases hH : r.headers <;>
      simp [he, hH, Option.isNone_iff_eq_none]

/-- C6 witness: a well-formed 200 envelope passes `validateApiResponse`. -/
theorem validateApiResponse_passes_iff_witness :
    validateApiResponse (α := Nat) ⟨some 7, none, 200, .obj []⟩ 200 = true :=
  (validateApiResponse_passes_iff Nat ⟨some 7, none, 200, .obj []⟩ 200).mpr
    ⟨rfl, fun _ => ⟨rfl, rfl⟩, fun h => absurd rfl h, ⟨[], rfl⟩⟩

/-- C1: for a completed-and-parsed HTTP exchange, the envelope returned by
`ApiClient.get` is independent of the caller's `expectedStatus` option and
has the parsed body in `data` with `error` undefined exactly when the
status is in `[200, 300)`, otherwise the parsed body in `error` with
`data` undefined; status and headers are always populated, and `data` and
`error` are never both defined. -/
theorem get_envelope_classification :
    ∀ (α : Type) (baseUrl endpoint : String) (opts opts2 : GetOptions)
      (s : Nat) (v : α) (hs : List (String × String)),
      get baseUrl endpoint opts (.completed s (.parsed v) hs) =
        get baseUrl endpoint opts2 (.completed s (.parsed v) hs) ∧
      ∃ env : ApiResponse α,
        get baseUrl endpoint opts (.completed s (.parsed v) hs) = .ok env ∧
        ((env.data = some v ∧ env.error = none) ↔ (200 ≤ s ∧ s < 300)) ∧
        ((env.error = some v ∧ env.data = none) ↔ ¬(200 ≤ s ∧ s < 300)) ∧
        env.status = s ∧
        env.headers = HeadersField.obj hs ∧
        ¬(env.data.isSome = true ∧ env.error.isSome = true) := by
  intro α baseUrl endpoint opts opts2 s v hs
  refine ⟨rfl, ?_⟩
  refine ⟨_, rfl, ?_, ?_, rfl, rfl, ?_⟩ <;>
    by_cases h : 200 ≤ s ∧ s < 300 <;> simp [h]

/-- C1 witness: the theorem instantiated at a parsed 404 exchange, whose
envelope carries the body in `error` with `data` undefined and is the same
for a caller expecting 404 as for one using the default options. -/
theorem get_envelope_classification_witness :
    get (α := Nat) "http://localhost:3000" "/posts/999/comments"
      { expectedStatus := 404 } (.completed 404 (.parsed 7) []) =
      get "http://localhost:3000" "/posts/999/comments" defaultGetOptions
        (.completed 404 (.parsed 7) []) ∧
    ∃ env : ApiResponse Nat,
      get "http://localhost:3000" "/posts/999/comments" { expectedStatus := 404 }
        (.completed 404 (.parsed 7) []) = .ok env ∧
      ((env.data = some 7 ∧ env.error = none) ↔ (200 ≤ 404 ∧ 404 < 300)) ∧
      ((env.error = some 7 ∧ env.data = none) ↔ ¬(200 ≤ 404 ∧ 404 < 300)) ∧
      env.status = 404 ∧
      env.headers = HeadersField.obj [] ∧
      ¬(env.data.isSome = true ∧ env.error.isSome = true) :=
  get_envelope_classification Nat "http://localhost:3000" "/posts/999/comments"
    { expectedStatus := 404 } defaultGetOptions 404 7 []

/-- C7: when the HTTP exchange completes but the body fails to parse as
JSON, `ApiClient.get` raises a `parseError` (it never returns an envelope
for that call), and a `parseError` is distinct from a `transportError`
whatever the carried messages are. -/
theorem get_parse_failure_raises :
    ∀ (α : Type) (baseUrl endpoint : String) (opts : GetOptions) (s : Nat)
      (hs : List (String × String)),
      (∃ msg, get (α := α) baseUrl endpoint opts (.completed s .parseFail hs) =
        .error (.parseError msg)) ∧
      (∀ env : ApiResponse α,
        get baseUrl endpoint opts (.completed s .parseFail hs) ≠ .ok env) ∧
      (∀ m₁ m₂ : String, GetError.parseError m₁ ≠ GetError.transportError m₂) := by
  intro α baseUrl endpoint opts s hs
  refine ⟨⟨_, rfl⟩, ?_, ?_⟩
  · intro env h
    simp [get] at h
  · intro m₁ m₂ h
    exact GetError.noConfusion h

/-- C7 witness: a concrete parse-failing exchange yields a `parseError`
and no envelope. -/
theorem get_parse_failure_raises_witness :
    (∃ msg, get (α := Nat) "http://localhost:3000" "/posts/1/comments"
      defaultGetOptions (.completed 200 .parseFail []) =
        .error (.parseError msg)) ∧
    (∀ env : ApiResponse Nat,
      get "http://localhost:3000" "/posts/1/comments" defaultGetOptions
        (.completed 200 .parseFail []) ≠ .ok env) :=
  ⟨(get_parse_failure_raises Nat "http://localhost:3000" "/posts/1/comments"
      defaultGetOptions 200 []).1,
   (get_parse_failure_raises Nat "http://localhost:3000" "/posts/1/comments"
      defaultGetOptions 200 []).2.1⟩

/-- C9: `healthCheck` is a total boolean function (it never raises): it
returns true exactly when the GET to the fixed path `/health` returns an
envelope with status 200, and returns false whenever the underlying `get`
raises (transport or parse error). -/
theorem healthCheck_spec :
    ∀ (α : Type) (baseUrl : String) (tr : TransportResult α),
      (healthCheck baseUrl tr = true ↔
        ∃ env : ApiResponse α,
          get baseUrl "/health" { expectedStatus := 200 } tr = .ok env ∧
          env.status = 200) ∧
      (∀ e : GetError,
        get (α := α) baseUrl "/health" { expectedStatus := 200 } tr = .error e →
        healthCheck baseUrl tr = false) := by
  intro α baseUrl tr
  constructor
  · rw [healthCheck]
    cases h : get (α := α) baseUrl "/health" { expectedStatus := 200 } tr with
    | ok env => simp
    | error e => simp
  · intro e he
    rw [healthCheck, he]

/-- C9 witness: a transport failure is swallowed into `false`; a parse
failure is swallowed into `false`; a completed 200 exchange yields `true`. -/
theorem healthCheck_spec_witness :
    healthCheck (α := Nat) "http://localhost:3000" (.failed "connection refused") = false ∧
    healthCheck (α := Nat) "http://localhost:3000" (.completed 200 .parseFail []) = false ∧
    healthCheck (α := Nat) "http://localhost:3000" (.completed 200 (.parsed 7) []) = true :=
  ⟨(healthCheck_spec Nat "http://localhost:3000" (.failed "connection refused")).2 _ rfl,
   (healthCheck_spec Nat "http://localhost:3000" (.completed 200 .parseFail [])).2 _ rfl,
   (healthCheck_spec Nat "http://localhost:3000" (.completed 200 (.parsed 7) [])).1.mpr
     ⟨_, rfl, rfl⟩⟩

/-- C10: every envelope `ApiClient.get` produces from a status in
`[201, 300)` has `data` defined and `error` undefined, yet
`validateApiResponse` with that very status as the expectation fails: its
non-200 branch demands `error` defined and `data` undefined, so its
non-raising path is unreachable for `get`-produced 2xx envelopes whose
status is not 200. -/
theorem get_2xx_non200_envelope_fails_validateApiResponse :
    ∀ (α : Type) (baseUrl endpoint : String) (opts : GetOptions) (s : Nat),
      201 ≤ s → s < 300 →
      ∀ (v : α) (hs : List (String × String)),
        ∃ env : ApiResponse α,
          get baseUrl endpoint opts (.completed s (.parsed v) hs) = .ok env ∧
          env.data.isSome = true ∧ env.error = none ∧
          validateApiResponse env s = false := by
  intro α baseUrl endpoint opts s h1 h2 v hs
  have hsucc : 200 ≤ s ∧ s < 300 := ⟨by omega, h2⟩
  have hne : s ≠ 200 := by omega
  refine ⟨_, rfl, ?_, ?_, ?_⟩
  · simp [hsucc]
  · simp [hsucc]
  · rw [validateApiResponse]
    simp [hsucc, hne]

/-- C10 witness: a parsed 201 response produces a `data`-carrying envelope
that `validateApiResponse` at expected status 201 rejects. -/
theorem get_2xx_non200_envelope_fails_validateApiResponse_witness :
    ∃ env : ApiResponse Nat,
      get "http://localhost:3000" "/posts" defaultGetOptions
        (.completed 201 (.parsed 7) []) = .ok env ∧
      env.data.isSome = true ∧ env.error = none ∧
      validateApiResponse env 201 = false :=
  get_2xx_non200_envelope_fails_validateApiResponse Nat "http://localhost:3000"
    "/posts" defaultGetOptions 201 (by omega) (by omega) 7 []

lemma joinAll_ok_of_all (l : List (Except GetError β))
    (h : ∀ x ∈ l, ∃ b, x = Except.ok b) :
    ∃ bs, joinAll l = .ok bs ∧ bs.length = l.length ∧
      ∀ b ∈ bs, Except.ok b ∈ l := by
  induction l with
  | nil => exact ⟨[], rfl, rfl, by simp⟩
  | cons x l ih =>
    obtain ⟨b, hb⟩ := h x (by simp)
    subst hb
    obtain ⟨bs, hj, hl, hmem⟩ := ih (fun y hy => h y (by simp [hy]))
    refine ⟨b :: bs, ?_, by simp [hl], ?_⟩
    · simp [joinAll, hj]
    · intro c hc
      rcases List.mem_cons.mp hc with hc | hc
      · rw [hc]; simp
      · exact List.mem_cons_of_mem _ (hmem c hc)

lemma joinAll_error_of_mem (l : List (Except GetError β))
    (h : ∃ x ∈ l, ∀ b, x ≠ Except.ok b) :
    ∃ e, joinAll l = .error e := by
  induction l with
  | nil => simp at h
  | cons x l ih =>
    cases x with
    | error e => exact ⟨e, rfl⟩
    | ok b =>
      obtain ⟨y, hy, hne⟩ := h
      rcases List.mem_cons.mp hy with hy | hy
      · exact absurd hy (hne b)
      · obtain ⟨e, he⟩ := ih ⟨y, hy, hne⟩
        exact ⟨e, by simp [joinAll, he]⟩

/-- C8: `concurrentRequests(endpoint, n)` issues exactly `n` GETs; when
every one of them returns an envelope the call returns a list of exactly
`n` envelopes (and against a healthy server answering each request with a
parsed 200 response, all `n` envelopes have status 200); if any single
request raises, the whole call raises and no partial list is returned. -/
theorem concurrentRequests_join_all :
    ∀ (α : Type) (baseUrl endpoint : String) (n : Nat)
      (outcome : Nat → TransportResult α),
      ((∀ i, i < n →
          ∃ env, get baseUrl endpoint defaultGetOptions (outcome i) = .ok env) →
        ∃ envs, concurrentRequests baseUrl endpoint n outcome = .ok envs ∧
          envs.length = n) ∧
      ((∀ i, i < n → ∃ (v : α) (hs : List (String × String)),
          outcome i = .completed 200 (.parsed v) hs) →
        ∃ envs, concurrentRequests baseUrl endpoint n outcome = .ok envs ∧
          envs.length = n ∧ ∀ env ∈ envs, env.status = 200) ∧
      ((∃ i, i < n ∧
          ∃ e, get baseUrl endpoint defaultGetOptions (outcome i) = .error e) →
        ∃ e, concurrentRequests baseUrl endpoint n outcome = .error e) := by
  intro α baseUrl endpoint n outcome
  refine ⟨?_, ?_, ?_⟩
  · intro h
    obtain ⟨bs, hj, hl, _⟩ := joinAll_ok_of_all
      ((List.range n).map (fun i => get baseUrl endpoint defaultGetOptions (outcome i)))
      (by
        intro x hx
        obtain ⟨i, hi, hfi⟩ := List.mem_map.mp hx
        obtain ⟨env, henv⟩ := h i (List.mem_range.mp hi)
        exact ⟨env, by rw [← hfi, henv]⟩)
    refine ⟨bs, hj, ?_⟩
    rw [hl]; simp
  · intro h
    have hok : ∀ i, i < n →
        ∃ env, get baseUrl endpoint defaultGetOptions (outcome i) = .ok env ∧
          env.status = 200 := by
      intro i hi
      obtain ⟨v, hs, ho⟩ := h i hi
      rw [ho]
      exact ⟨_, rfl, rfl⟩
    obtain ⟨bs, hj, hl, hmem⟩ := joinAll_ok_of_all
      ((List.range n).map (fun i => get baseUrl endpoint defaultGetOptions (outcome i)))
      (by
        intro x hx
        obtain ⟨i, hi, hfi⟩ := List.mem_map.mp hx
        obtain ⟨env, henv, _⟩ := hok i (List.mem_range.mp hi)
        exact ⟨env, by rw [← hfi, henv]⟩)
    refine ⟨bs, hj, by rw [hl]; simp, ?_⟩
    intro env henv
    have hin := hmem env henv
    obtain ⟨i, hi, hfi⟩ := List.mem_map.mp hin
    obtain ⟨env2, henv2, hst⟩ := hok i (List.mem_range.mp hi)
    rw [henv2] at hfi
    have : env2 = env := by
      injection hfi
    rw [← this]
    exact hst
  · rintro ⟨i, hi, e, he⟩
    apply joinAll_error_of_mem
    refine ⟨get baseUrl endpoint defaultGetOptions (outcome i), ?_, ?_⟩
    · exact List.mem_map.mpr ⟨i, List.mem_range.mpr hi, rfl⟩
    · intro b hb
      rw [he] at hb
      exact Except.noConfusion hb

/-- C8 witness: two healthy parsed-200 outcomes yield a two-envelope list
all of status 200; a batch whose second request fails at the transport
level rejects as a whole. -/
theorem concurrentRequests_join_all_witness :
    (∃ envs, concurrentRequests "http://localhost:3000" "/posts" 2
        (fun _ => TransportResult.completed 200 (.parsed (0 : Nat)) []) = .ok envs ∧
      envs.length = 2 ∧ ∀ env ∈ envs, env.status = 200) ∧
    (∃ e, concurrentRequests "http://localhost:3000" "/posts" 2
        (fun i => if i = 1 then TransportResult.failed "timeout"
                  else TransportResult.completed 200 (.parsed (0 : Nat)) []) =
      .error e) := by
  constructor
  · exact (concurrentRequests_join_all Nat "http://localhost:3000" "/posts" 2
      (fun _ => TransportResult.completed 200 (.parsed 0) [])).2.1
      (fun i hi => ⟨0, [], rfl⟩)
  · exact (concurrentRequests_join_all Nat "http://localhost:3000" "/posts" 2
      (fun i => if i = 1 then TransportResult.failed "timeout"
                else TransportResult.completed 200 (.parsed 0) [])).2.2
      ⟨1, by omega, _, rfl⟩

lemma typeof_string_cases {v : JsVal} (h : typeofStr v = "string") :
    ∃ s, v = JsVal.str s := by
  cases v <;> simp [typeofStr] at h ⊢

lemma ne_empty_of_jsTrim_ne {s : String} (h : jsTrim s ≠ "") : s ≠ "" := by
  intro he
  rw [he] at h
  exact h rfl

lemma jsTruthy_str_of_ne {s : String} (h : s ≠ "") :
    jsTruthy (JsVal.str s) = true := by
  rcases s with ⟨cs⟩
  cases cs with
  | nil => exact absurd rfl h
  | cons c cs => rfl

lemma string_length_ne_zero {s : String} (h : s ≠ "") : ¬s.length = 0 := by
  rcases s with ⟨cs⟩
  cases cs with
  | nil => exact absurd rfl h
  | cons c cs => exact Nat.succ_ne_zero _

lemma fkMismatch_false {x : JsVal} {e : Option Int}
    (h : ∀ k, e = some k → asNum x = k) : fkMismatch x e = false := by
  cases e with
  | none => rfl
  | some k => simp [fkMismatch, h k rfl]

lemma validateCommentObject_sound (v : JsVal)
    (hguard : isComment v = true)
    (htid : jsTruthy (getField v "id") = true)
    (htpost : jsTruthy (getField v "postId") = true)
    (hemail : validateEmailFormat (asString (getField v "email")) = true)
    (hname : jsTrim (asString (getField v "name")) ≠ "")
    (hemailNe : jsTrim (asString (getField v "email")) ≠ "")
    (hbody : jsTrim (asString (getField v "body")) ≠ "") :
    validateCommentObject v = true := by
  simp only [isComment, Bool.and_eq_true, beq_iff_eq] at hguard
  obtain ⟨⟨⟨⟨⟨⟨hobj, hnn⟩, hidN⟩, hpostN⟩, hnameS⟩, hemailS⟩, hbodyS⟩ := hguard
  obtain ⟨sn, hsn⟩ := typeof_string_cases hnameS
  obtain ⟨se, hse⟩ := typeof_string_cases hemailS
  obtain ⟨sb, hsb⟩ := typeof_string_cases hbodyS
  rw [hsn] at hname
  rw [hse] at hemailNe
  rw [hsb] at hbody
  have htn : jsTruthy (getField v "name") = true := by
    rw [hsn]
    exact jsTruthy_str_of_ne (ne_empty_of_jsTrim_ne hname)
  have hte : jsTruthy (getField v "email") = true := by
    rw [hse]
    exact jsTruthy_str_of_ne (ne_empty_of_jsTrim_ne hemailNe)
  have htb : jsTruthy (getField v "body") = true := by
    rw [hsb]
    exact jsTruthy_str_of_ne (ne_empty_of_jsTrim_ne hbody)
  have hl1 : ¬(jsTrim (asString (getField v "name"))).length = 0 := by
    rw [hsn]
    exact string_length_ne_zero hname
  have hl2 : ¬(jsTrim (asString (getField v "email"))).length = 0 := by
    rw [hse]
    exact string_length_ne_zero hemailNe
  have hl3 : ¬(jsTrim (asString (getField v "body"))).length = 0 := by
    rw [hsb]
    exact string_length_ne_zero hbody
  rw [validateCommentObject]
  simp [htid, htpost, htn, hte, htb, hidN, hpostN, hnameS, hemailS, hbodyS,
    hemail, hl1, hl2, hl3]

lemma validatePhoto_sound (urlOk : String → Bool) (v : JsVal) (eAlb : Option Int)
    (hguard : isPhoto v = true)
    (hurl : urlOk (asString (getField v "url")) = true)
    (hthumb : urlOk (asString (getField v "thumbnailUrl")) = true)
    (hfk : ∀ e, eAlb = some e → asNum (getField v "albumId") = e) :
    validatePhoto urlOk v eAlb = true := by
  rw [validatePhoto]
  simp [hguard, hurl, hthumb, fkMismatch_false hfk]

lemma validateAlbum_sound (v : JsVal) (eU : Option Int)
    (hguard : isAlbum v = true)
    (hfk : ∀ e, eU = some e → asNum (getField v "userId") = e)
    (htitle : jsTrim (asString (getField v "title")) ≠ "") :
    validateAlbum v eU = true := by
  have hguard' := hguard
  simp only [isAlbum, Bool.and_eq_true, beq_iff_eq] at hguard'
  obtain ⟨⟨⟨⟨hobj, hnn⟩, hidN⟩, huN⟩, htS⟩ := hguard'
  obtain ⟨st, hst⟩ := typeof_string_cases htS
  rw [hst] at htitle
  have htt : jsTruthy (getField v "title") = true := by
    rw [hst]
    exact jsTruthy_str_of_ne (ne_empty_of_jsTrim_ne htitle)
  have hlt : ¬(jsTrim (asString (getField v "title"))).length = 0 := by
    rw [hst]
    exact string_length_ne_zero htitle
  rw [validateAlbum]
  simp [hguard, htt, hlt, fkMismatch_false hfk]

lemma validateTodo_sound (v : JsVal) (eU : Option Int)
    (hguard : isTodo v = true)
    (hfk : ∀ e, eU = some e → asNum (getField v "userId") = e)
    (htitle : jsTrim (asString (getField v "title")) ≠ "") :
    validateTodo v eU = true := by
  have hguard' := hguard
  simp only [isTodo, Bool.and_eq_true, beq_iff_eq] at hguard'
  obtain ⟨⟨⟨⟨⟨hobj, hnn⟩, hidN⟩, huN⟩, htS⟩, hcB⟩ := hguard'
  obtain ⟨st, hst⟩ := typeof_string_cases htS
  rw [hst] at htitle
  have htt : jsTruthy (getField v "title") = true := by
    rw [hst]
    exact jsTruthy_str_of_ne (ne_empty_of_jsTrim_ne htitle)
  have hlt : ¬(jsTrim (asString (getField v "title"))).length = 0 := by
    rw [hst]
    exact string_length_ne_zero htitle
  rw [validateTodo]
  simp [hguard, hcB, htt, hlt, fkMismatch_false hfk]

lemma validatePost_sound (v : JsVal) (eU : Option Int)
    (hguard : isPost v = true)
    (hfk : ∀ e, eU = some e → asNum (getField v "userId") = e)
    (htitle : jsTrim (asString (getField v "title")) ≠ "")
    (hbody : jsTrim (asString (getField v "body")) ≠ "") :
    validatePost v eU = true := by
  have hguard' := hguard
  simp only [isPost, Bool.and_eq_true, beq_iff_eq] at hguard'
  obtain ⟨⟨⟨⟨⟨hobj, hnn⟩, hidN⟩, huN⟩, htS⟩, hbS⟩ := hguard'
  obtain ⟨st, hst⟩ := typeof_string_cases htS
  obtain ⟨sb, hsb⟩ := typeof_string_cases hbS
  rw [hst] at htitle
  rw [hsb] at hbody
  have htt : jsTruthy (getField v "title") = true := by
    rw [hst]
    exact jsTruthy_str_of_ne (ne_empty_of_jsTrim_ne htitle)
  have htb : jsTruthy (getField v "body") = true := by
    rw [hsb]
    exact jsTruthy_str_of_ne (ne_empty_of_jsTrim_ne hbody)
  have hlt : ¬(jsTrim (asString (getField v "title"))).length = 0 := by
    rw [hst]
    exact string_length_ne_zero htitle
  have hlb : ¬(jsTrim (asString (getField v "body"))).length = 0 := by
    rw [hsb]
    exact string_length_ne_zero hbody
  rw [validatePost]
  simp [hguard, htt, htb, hlt, hlb, fkMismatch_false hfk]

/-- C2 counterexample: the value `commentWithZeroPostId` (a comment with
`postId = 0`) matches the `isComment` shape guard, has a valid email and
non-empty-after-trim text fields, yet `validateCommentObject` rejects it:
the claim as stated fails for the numeric value 0 of a foreign-key field. -/
theorem validateCommentObject_rejects_zero_postId :
    isComment commentWithZeroPostId = true ∧
    jsTruthy (getField commentWithZeroPostId "id") = true ∧
    validateEmailFormat (asString (getField commentWithZeroPostId "email")) = true ∧
    jsTrim (asString (getField commentWithZeroPostId "name")) ≠ "" ∧
    jsTrim (asString (getField commentWithZeroPostId "email")) ≠ "" ∧
    jsTrim (asString (getField commentWithZeroPostId "body")) ≠ "" ∧
    validateCommentObject commentWithZeroPostId = false := by
  decide

/-- C2 (amended): every value matching an entity shape guard and the
layered business rules (valid email/URL format where applicable,
non-empty-after-trim human-readable text fields, and no expected foreign
key or one equal to the value's) is accepted by the corresponding entity
validator — for every numeric value of the id and foreign-key fields,
including 0, for photos, albums, todos and posts; for comments
`validateCommentObject` additionally requires the `id` and `postId` fields
to be JS-truthy (non-zero), and with that extra condition it accepts. -/
theorem entityValidators_accept_valid_values :
    ∀ (urlOk : String → Bool) (c p a t po : JsVal)
      (eAlb eUA eUT eUP : Option Int),
      isComment c = true →
      jsTruthy (getField c "id") = true →
      jsTruthy (getField c "postId") = true →
      validateEmailFormat (asString (getField c "email")) = true →
      jsTrim (asString (getField c "name")) ≠ "" →
      jsTrim (asString (getField c "email")) ≠ "" →
      jsTrim (asString (getField c "body")) ≠ "" →
      isPhoto p = true →
      urlOk (asString (getField p "url")) = true →
      urlOk (asString (getField p "thumbnailUrl")) = true →
      (∀ e, eAlb = some e → asNum (getField p "albumId") = e) →
      isAlbum a = true →
      (∀ e, eUA = some e → asNum (getField a "userId") = e) →
      jsTrim (asString (getField a "title")) ≠ "" →
      isTodo t = true →
      (∀ e, eUT = some e → asNum (getField t "userId") = e) →
      jsTrim (asString (getField t "title")) ≠ "" →
      isPost po = true →
      (∀ e, eUP = some e → asNum (getField po "userId") = e) →
      jsTrim (asString (getField po "title")) ≠ "" →
      jsTrim (asString (getField po "body")) ≠ "" →
      validateCommentObject c = true ∧
      validatePhoto urlOk p eAlb = true ∧
      validateAlbum a eUA = true ∧
      validateTodo t eUT = true ∧
      validatePost po eUP = true := by
  intro urlOk c p a t po eAlb eUA eUT eUP
  intro h1 h2 h3 h4 h5 h6 h7 h8 h9 h10 h11 h12 h13 h14 h15 h16 h17 h18 h19 h20 h21
  exact ⟨validateCommentObject_sound c h1 h2 h3 h4 h5 h6 h7,
         validatePhoto_sound urlOk p eAlb h8 h9 h10 h11,
         validateAlbum_sound a eUA h12 h13 h14,
         validateTodo_sound t eUT h15 h16 h17,
         validatePost_sound po eUP h18 h19 h20 h21⟩

/-- C2 witness: concrete sample entities — including a photo, album, todo
and post whose `id` and foreign-key fields are all 0 with the expected
foreign key `some 0` — are accepted by their validators. -/
theorem entityValidators_accept_valid_values_witness :
    validateCommentObject sampleComment = true ∧
    validatePhoto (fun _ => true) samplePhoto (some 0) = true ∧
    validateAlbum sampleAlbum (some 0) = true ∧
    validateTodo sampleTodo (some 0) = true ∧
    validatePost samplePost (some 0) = true :=
  entityValidators_accept_valid_values (fun _ => true)
    sampleComment samplePhoto sampleAlbum sampleTodo samplePost
    (some 0) (some 0) (some 0) (some 0)
    (by decide) (by decide) (by decide) (by decide) (by decide) (by decide)
    (by decide) (by decide) (by decide) (by decide)
    (fun e he => by cases he; rfl)
    (by decide) (fun e he => by cases he; rfl) (by decide)
    (by decide) (fun e he => by cases he; rfl) (by decide)
    (by decide) (fun e he => by cases he; rfl) (by decide) (by decide)

end ApiTest
